/-
Verification of the CASMcode_monte sampling / completion-check core.

This file gives a shallow embedding, in Lean 4, of the C++ code of the
repository (the `CASM::monte` namespace): the `StateSampler` scheduling
state machine, the `Sampler` observation store, requested-precision
construction, results analysis, the JSON parameter parsers, and the
`FixedConfigGenerator`.  C++ `double` values are modelled as real numbers,
`CountType` (`long`) as `ℤ`, `std::map` as association lists with
`emplace` = insert-if-absent, and exceptions as explicit error results.
The random number generator is modelled as a stream of real draws.
-/
import Mathlib

namespace CASMMonte

/-- The `SAMPLE_MODE` enum from definitions.hh: sample by step, pass, or time. -/
inductive SAMPLE_MODE where
  | BY_STEP
  | BY_PASS
  | BY_TIME
deriving DecidableEq

/-- The `SAMPLE_METHOD` enum from definitions.hh: linear or logarithmic spacing. -/
inductive SAMPLE_METHOD where
  | LINEAR
  | LOG
deriving DecidableEq

/-- The kind of C++ exception escaping a call.  `runtimeError` stands for
`std::runtime_error`; `otherError` stands for any other exception type
(e.g. `std::out_of_range` from `std::map::at`, which does not derive from
`std::runtime_error`). -/
inductive ErrKind where
  | runtimeError
  | otherError
deriving DecidableEq

/-- Models `std::round` applied to a real value, landing in `ℤ`: rounds to the
nearest integer, halfway cases away from zero. -/
noncomputable def cround (x : ℝ) : ℤ :=
  if 0 ≤ x then ⌊x + 1 / 2⌋ else ⌈x - 1 / 2⌉

/-- C++ conversion `double → long`: truncation toward zero. -/
noncomputable def ctrunc (x : ℝ) : ℤ :=
  if 0 ≤ x then ⌊x⌋ else ⌈x⌉

/-- The random number generator, modelled as an infinite stream of real
draws together with a cursor.  `random_real(1.0)` returns the draw at the
cursor and advances it. -/
structure RNG where
  stream : ℕ → ℝ
  pos : ℕ

namespace RNG

/-- Models `random_number_generator.random_real(1.0)`: the next draw. -/
def draw (g : RNG) : ℝ := g.stream g.pos

/-- Advance the cursor after `n` draws were consumed. -/
def advance (g : RNG) (n : ℕ) : RNG := { g with pos := g.pos + n }

end RNG

section AssocList

variable {κ : Type _} {α : Type _} [DecidableEq κ]

/-- Models `std::map::find` / `at`: the value bound to `k`, if any. -/
def lookupA (m : List (κ × α)) (k : κ) : Option α :=
  match m with
  | [] => none
  | (k', v) :: rest => if k' = k then some v else lookupA rest k

/-- Models `std::map::emplace`: insert `(k, v)` if no binding for `k` exists;
otherwise leave the map unchanged (C++ `emplace` does not overwrite). -/
def emplaceA (m : List (κ × α)) (k : κ) (v : α) : List (κ × α) :=
  match m with
  | [] => [(k, v)]
  | (k', v') :: rest =>
      if k' = k then (k', v') :: rest else (k', v') :: emplaceA rest k v

/-- Mutation through `std::map::at`: replace the value bound to `k` by
`f` of it; a no-op when `k` is unbound (callers guard with `lookupA`). -/
def updateA (m : List (κ × α)) (k : κ) (f : α → α) : List (κ × α) :=
  match m with
  | [] => []
  | (k', v') :: rest =>
      if k' = k then (k', f v') :: rest else (k', v') :: updateA rest k f

theorem lookupA_emplaceA_self (m : List (κ × α)) (k : κ) (v : α) :
    lookupA (emplaceA m k v) k = some ((lookupA m k).getD v) := by
  induction m with
  | nil => simp [lookupA, emplaceA]
  | cons p rest ih =>
      obtain ⟨k', v'⟩ := p
      by_cases h : k' = k <;> simp [lookupA, emplaceA, h, ih]

theorem emplaceA_of_lookupA_isSome (m : List (κ × α)) (k : κ) (v : α)
    (h : (lookupA m k).isSome) : emplaceA m k v = m := by
  induction m with
  | nil => simp [lookupA] at h
  | cons p rest ih =>
      obtain ⟨k', v'⟩ := p
      by_cases hk : k' = k
      · simp [emplaceA, hk]
      · simp [lookupA, hk] at h
        simp [emplaceA, hk, ih h]

theorem emplaceA_of_lookupA_eq_none (m : List (κ × α)) (k : κ) (v : α)
    (h : lookupA m k = none) : emplaceA m k v = m ++ [(k, v)] := by
  induction m with
  | nil => simp [emplaceA]
  | cons p rest ih =>
      obtain ⟨k', v'⟩ := p
      by_cases hk : k' = k
      · simp [lookupA, hk] at h
      · simp [lookupA, hk] at h
        simp [emplaceA, hk, ih h]

theorem updateA_keys (m : List (κ × α)) (k : κ) (f : α → α) :
    (updateA m k f).map Prod.fst = m.map Prod.fst := by
  induction m with
  | nil => rfl
  | cons p rest ih =>
      obtain ⟨k', v'⟩ := p
      by_cases h : k' = k <;> simp [updateA, h, ih]

theorem updateA_of_ne (m : List (κ × α)) (k k' : κ) (v : α) (f : α → α)
    (h : k' ≠ k) : updateA ((k', v) :: m) k f = (k', v) :: updateA m k f := by
  simp [updateA, h]

end AssocList

/-- Modelled from the spec: the `Sampler` class (casm/monte/sampling/Sampler.hh
is not under src/).  Per spec section 4.1 it is an append-only matrix of
observation rows with fixed `component_names` and logical `shape`;
`push_back(vec)` appends a row and fails if `len(vec) ≠ n_components`. -/
structure Sampler where
  shape : List ℤ
  component_names : List String
  values : List (List ℝ)

namespace Sampler

/-- Modelled from the spec: `push_back` appends a row; fails when the
vector width does not match the number of components. -/
def push_back (sp : Sampler) (v : List ℝ) : Except ErrKind Sampler :=
  if v.length = sp.component_names.length then
    .ok { sp with values := sp.values ++ [v] }
  else
    .error .otherError

/-- Models `Sampler::clear()`: drop all rows. -/
def clear (sp : Sampler) : Sampler := { sp with values := [] }

/-- Models `Sampler::n_samples()`: the number of rows. -/
def n_samples (sp : Sampler) : ℕ := sp.values.length

end Sampler

/-- The `StateSamplingFunction` struct (StateSampler.hh): the descriptive data of a
sampling function.  The C++ callable `std::function<Eigen::VectorXd()>`
reads external mutable state, so the value a function returns at a given
call is supplied by the environment `Env` below, per function position. -/
structure StateSamplingFunction where
  name : String
  description : String
  shape : List ℤ
  component_names : List String

/-- The external world read by one `sample_data` call: the sampled
configuration (`state.configuration`), the wall clocktime (`log.time_s()`),
and the vector each sampling function returns at this call (`fval i` is
the value returned by the `i`-th entry of `functions`). -/
structure Env (Config : Type _) where
  configuration : Config
  clocktime : ℝ
  fval : ℕ → List ℝ

/-- The `StateSampler<ConfigType, EngineType>` struct (StateSampler.hh),
with its random number generator inlined as an `RNG` stream. -/
structure SState (Config : Type _) where
  rng : RNG
  sample_mode : SAMPLE_MODE
  sample_method : SAMPLE_METHOD
  begin : ℝ
  period : ℝ
  samples_per_period : ℝ
  shift : ℝ
  stochastic_sample_period : Bool
  do_sample_trajectory : Bool
  do_sample_time : Bool
  functions : List StateSamplingFunction
  step : ℤ
  pass : ℤ
  steps_per_pass : ℤ
  count : ℤ
  time : ℝ
  n_accept : ℤ
  n_reject : ℤ
  next_sample_count : ℤ
  next_sample_time : ℝ
  samplers : List (String × Sampler)
  sample_count : List ℤ
  sample_time : List ℝ
  sample_weight : Sampler
  sample_clocktime : List ℝ
  sample_trajectory : List Config

namespace SState

variable {Config : Type _}

open Classical in
/-- Models `StateSampler::stochastic_count_step(sample_rate)`: draw uniform reals
until one falls below `sample_rate` and return how many draws were needed.
Returns `none` when no draw ever falls below the rate (the C++ loop then
never terminates). -/
noncomputable def stochastic_count_step (g : RNG) (sample_rate : ℝ) :
    Option (ℤ × RNG) :=
  if h : ∃ k : ℕ, g.stream (g.pos + k) < sample_rate then
    some ((Nat.find h : ℤ) + 1, g.advance (Nat.find h + 1))
  else
    none

/-- Models `StateSampler::stochastic_time_step(sample_rate)`:
`-log(random_real(1.0)) / sample_rate`. -/
noncomputable def stochastic_time_step (g : RNG) (sample_rate : ℝ) : ℝ × RNG :=
  (-Real.log g.draw / sample_rate, g.advance 1)

/-- Models `StateSampler::sample_at(sample_index)`: the count / time at which the
`sample_index`-th sample should be taken.  Returns `none` exactly when the
stochastic count loop never terminates.  (`sample_time.back()` /
`sample_count.back()` are modelled with default `0`, which is never read:
the stochastic branch is only reached with `sample_index ≥ 1`, and the
callers pass the size of the corresponding container.) -/
noncomputable def sample_at (s : SState Config) (sample_index : ℕ) :
    Option (ℝ × RNG) :=
  if s.stochastic_sample_period then
    if sample_index = 0 then
      some (s.begin, s.rng)
    else
      let n : ℝ := (sample_index : ℝ)
      let rate : ℝ :=
        match s.sample_method with
        | .LINEAR => 1 / (s.period / s.samples_per_period)
        | .LOG =>
            1 / (Real.log s.period *
              s.period ^ ((n + s.shift) / s.samples_per_period) /
              s.samples_per_period)
      if s.sample_mode = .BY_TIME then
        let st := stochastic_time_step s.rng rate
        some (s.sample_time.getLastD 0 + st.1, st.2)
      else
        match stochastic_count_step s.rng rate with
        | some (dn, g) => some ((s.sample_count.getLastD 0 : ℝ) + (dn : ℝ), g)
        | none => none
  else
    let n : ℝ := (sample_index : ℝ)
    match s.sample_method with
    | .LINEAR => some (s.begin + s.period / s.samples_per_period * n, s.rng)
    | .LOG =>
        some (s.begin + s.period ^ ((n + s.shift) / s.samples_per_period), s.rng)

/-- Models `StateSampler::increment_step()`: advance the step counter, rolling
over into a pass and updating `count` per the sampling mode. -/
def increment_step (s : SState Config) : SState Config :=
  let s1 := { s with
    step := s.step + 1,
    count := if s.sample_mode = .BY_STEP then s.count + 1 else s.count }
  if s1.step = s1.steps_per_pass then
    { s1 with
      pass := s1.pass + 1,
      count := if s.sample_mode ≠ .BY_STEP then s1.count + 1 else s1.count,
      step := 0 }
  else
    s1

/-- Models `StateSampler::set_time(event_time)`. -/
def set_time (s : SState Config) (event_time : ℝ) : SState Config :=
  { s with time := event_time }

/-- Models `StateSampler::increment_n_accept()`. -/
def increment_n_accept (s : SState Config) : SState Config :=
  { s with n_accept := s.n_accept + 1 }

/-- Models `StateSampler::increment_n_reject()`. -/
def increment_n_reject (s : SState Config) : SState Config :=
  { s with n_reject := s.n_reject + 1 }

end SState

/-- The outcome of a `sample_data` call: the C++ member function either
never returns (`diverges`, possible only for a stochastic sample period),
throws (`err`), or returns normally with the mutated object (`ok`). -/
inductive SDResult (Config : Type _) where
  | diverges
  | err (e : ErrKind)
  | ok (s : SState Config)

namespace SState

variable {Config : Type _}

/-- The loop body of `StateSampler::sample_data` over `functions`:
`samplers.at(function.name)->push_back(function())`, where the value the
`i`-th function returns is `env.fval i`.  A missing sampler name makes
`std::map::at` throw `std::out_of_range` (not a `std::runtime_error`). -/
def push_functions (env : Env Config) :
    List (String × Sampler) → List StateSamplingFunction → ℕ →
    Except ErrKind (List (String × Sampler))
  | samplers, [], _ => .ok samplers
  | samplers, f :: fs, i =>
      match lookupA samplers f.name with
      | none => .error .otherError
      | some sp =>
          match sp.push_back (env.fval i) with
          | .error e => .error e
          | .ok sp' => push_functions env (updateA samplers f.name fun _ => sp') fs (i + 1)

/-- The data-recording first half of `StateSampler::sample_data`: record
`count`, the simulated time (when `do_sample_time`), the clocktime, the
configuration (when `do_sample_trajectory`), then evaluate every sampling
function and append its vector into the matching `Sampler`. -/
def push_data (s : SState Config) (env : Env Config) :
    Except ErrKind (SState Config) :=
  let s1 := { s with sample_count := s.sample_count ++ [s.count] }
  let s2 :=
    if s1.do_sample_time then { s1 with sample_time := s1.sample_time ++ [s1.time] }
    else s1
  let s3 := { s2 with sample_clocktime := s2.sample_clocktime ++ [env.clocktime] }
  let s4 :=
    if s3.do_sample_trajectory then
      { s3 with sample_trajectory := s3.sample_trajectory ++ [env.configuration] }
    else s3
  match push_functions env s4.samplers s4.functions 0 with
  | .error e => .error e
  | .ok samplers' => .ok { s4 with samplers := samplers' }

open Classical in
/-- Models `StateSampler::sample_data(state, log)`: record the data, then
recompute the next sample target from the schedule and throw a
`std::runtime_error` when it is not strictly greater than the current
position. -/
noncomputable def sample_data (s : SState Config) (env : Env Config) :
    SDResult Config :=
  match push_data s env with
  | .error e => .err e
  | .ok s5 =>
      if s5.sample_mode = .BY_TIME then
        match s5.sample_at s5.sample_time.length with
        | none => .diverges
        | some (t, g) =>
            let s6 := { s5 with next_sample_time := t, rng := g }
            if s6.next_sample_time ≤ s6.time then .err .runtimeError else .ok s6
      else
        match s5.sample_at s5.sample_count.length with
        | none => .diverges
        | some (v, g) =>
            let s6 := { s5 with next_sample_count := cround v, rng := g }
            if s6.next_sample_count ≤ s6.count then .err .runtimeError else .ok s6

/-- Models `StateSampler::sample_data_by_count_if_due(state, log)`. -/
noncomputable def sample_data_by_count_if_due (s : SState Config)
    (env : Env Config) : SDResult Config :=
  if s.sample_mode ≠ .BY_TIME ∧ s.count = s.next_sample_count then
    s.sample_data env
  else
    .ok s

open Classical in
/-- Models `StateSampler::sample_data_by_time_if_due(state, event_time, log)`,
exactly as written in the source: the guard tests
`sample_mode != SAMPLE_MODE::BY_TIME && event_time >= next_sample_time`. -/
noncomputable def sample_data_by_time_if_due (s : SState Config)
    (env : Env Config) (event_time : ℝ) : SDResult Config :=
  if s.sample_mode ≠ .BY_TIME ∧ event_time ≥ s.next_sample_time then
    s.sample_data env
  else
    .ok s

/-- The sampler rebuild in `StateSampler::reset`: `samplers.clear()`, then
for each function `emplace(name, make_shared<Sampler>(shape, component_names))`. -/
def build_samplers (fns : List StateSamplingFunction) : List (String × Sampler) :=
  fns.foldl (fun m f => emplaceA m f.name ⟨f.shape, f.component_names, []⟩) []

open Classical in
/-- Models `StateSampler::reset(_steps_per_pass)`: zero the counters, rebuild the
samplers, clear all sampled-data containers, and compute the first sample
target, throwing `std::runtime_error` when it is negative.  The `none`
branches are unreachable (`sample_at` at index 0 always returns). -/
noncomputable def reset (s : SState Config) (steps_per_pass : ℝ) :
    Except ErrKind (SState Config) :=
  let s0 := { s with
    steps_per_pass := ctrunc steps_per_pass,
    step := 0, pass := 0, count := 0, time := 0, n_accept := 0, n_reject := 0,
    samplers := build_samplers s.functions,
    sample_count := [], sample_time := [],
    sample_weight := s.sample_weight.clear,
    sample_clocktime := [], sample_trajectory := [] }
  if s0.sample_mode = .BY_TIME then
    let s1 := { s0 with next_sample_count := 0 }
    match s1.sample_at s1.sample_time.length with
    | none => .error .runtimeError
    | some (t, g) =>
        if t < 0 then .error .runtimeError
        else .ok { s1 with next_sample_time := t, rng := g }
  else
    let s1 := { s0 with next_sample_time := 0 }
    match s1.sample_at s1.sample_count.length with
    | none => .error .runtimeError
    | some (v, g) =>
        if cround v < 0 then .error .runtimeError
        else .ok { s1 with next_sample_count := cround v, rng := g }

end SState

/-- One operation of the driving loop acting on a `StateSampler`. -/
inductive Op (Config : Type _) where
  | incStep
  | setTime (t : ℝ)
  | sample (env : Env Config)

/-- Execute a sequence of driving-loop operations; `none` as soon as a
`sample_data` call fails to return normally. -/
noncomputable def exec {Config : Type _} :
    SState Config → List (Op Config) → Option (SState Config)
  | s, [] => some s
  | s, .incStep :: ops => exec s.increment_step ops
  | s, .setTime t :: ops => exec (s.set_time t) ops
  | s, .sample env :: ops =>
      match s.sample_data env with
      | .ok s' => exec s' ops
      | _ => none

/-- The `count` values at the instants the samples of a trace were taken,
in order; `none` as soon as a `sample_data` call fails to return normally. -/
noncomputable def recordedCounts {Config : Type _} :
    SState Config → List (Op Config) → Option (List ℤ)
  | _, [] => some []
  | s, .incStep :: ops => recordedCounts s.increment_step ops
  | s, .setTime t :: ops => recordedCounts (s.set_time t) ops
  | s, .sample env :: ops =>
      match s.sample_data env with
      | .ok s' => (recordedCounts s' ops).map (s.count :: ·)
      | _ => none

/-- The `SamplerComponent` key (definitions.hh / Sampler.hh): the key
`(sampler_name, component_index, component_name)` of a requested-precision
map. -/
structure SamplerComponent where
  sampler_name : String
  component_index : ℕ
  component_name : String
deriving DecidableEq

/-- Modelled from the spec: `RequestedPrecision` (Sampler.hh is not under
src/): independently enabled absolute and relative precision requests.  The
default-constructed numeric values are `+infinity` in C++ (per the
`RequestedPrecisionConstructor` doc); floating-point infinity is not
modelled and no claim reads the default numeric values. -/
structure RequestedPrecision where
  abs_convergence_is_required : Bool := false
  abs_precision : ℝ := 0
  rel_convergence_is_required : Bool := false
  rel_precision : ℝ := 0

/-- Modelled from the spec: `RequestedPrecision::abs(value)` requests only
absolute convergence with precision `value`. -/
def RequestedPrecision.abs (value : ℝ) : RequestedPrecision :=
  { abs_convergence_is_required := true, abs_precision := value }

/-- Models `set_abs_precision_by_component_index` (StateSampler.hh): throws
`std::runtime_error` when `sampler_name` is not found or `component_index`
is out of range, otherwise emplaces a `RequestedPrecision::abs(value)`
entry for the named component.  The pair returned is (the map after the
call, the exception thrown if any); on a throw the map is untouched
because the throw precedes the `emplace`. -/
def set_abs_precision_by_component_index
    (component_map : List (SamplerComponent × RequestedPrecision))
    (sampling_functions : List (String × StateSamplingFunction))
    (sampler_name : String) (component_index : ℕ) (value : ℝ) :
    List (SamplerComponent × RequestedPrecision) × Option ErrKind :=
  match lookupA sampling_functions sampler_name with
  | none => (component_map, some .runtimeError)
  | some f =>
      if h : component_index < f.component_names.length then
        (emplaceA component_map
          ⟨sampler_name, component_index, f.component_names.get ⟨component_index, h⟩⟩
          (RequestedPrecision.abs value), none)
      else
        (component_map, some .runtimeError)

/-- The `RequestedPrecisionConstructor` struct (RequestedPrecisionConstructor.cc). -/
structure RequestedPrecisionConstructor where
  sampler_name : String
  sampler : Sampler
  requested_precision : List (SamplerComponent × RequestedPrecision)

namespace RequestedPrecisionConstructor

/-- The `RequestedPrecisionConstructor(_sampler_name, _sampler)`
constructor: one default-constructed entry per component of the sampler. -/
def init (sampler_name : String) (sampler : Sampler) :
    RequestedPrecisionConstructor :=
  { sampler_name := sampler_name,
    sampler := sampler,
    requested_precision :=
      sampler.component_names.enum.map fun p =>
        (⟨sampler_name, p.1, p.2⟩, ({} : RequestedPrecision)) }

/-- Models `RequestedPrecisionConstructor::component(Index)`: select only the
specified component.  Out-of-range indices throw `std::runtime_error`
before any mutation; when in range, the map is narrowed to that component
(`requested_precision.at` throws `std::out_of_range` — not a
`std::runtime_error` — if the component is not a key of the current map). -/
def component (rpc : RequestedPrecisionConstructor) (component_index : ℕ) :
    RequestedPrecisionConstructor × Option ErrKind :=
  if h : component_index < rpc.sampler.component_names.length then
    let comp : SamplerComponent :=
      ⟨rpc.sampler_name, component_index,
        rpc.sampler.component_names.get ⟨component_index, h⟩⟩
    match lookupA rpc.requested_precision comp with
    | none => (rpc, some .otherError)
    | some chosen =>
        ({ rpc with requested_precision := [(comp, chosen)] }, none)
  else
    (rpc, some .runtimeError)

/-- Models `RequestedPrecisionConstructor::abs_precision(_value)`: for every
currently selected component, require absolute convergence at `_value`. -/
def abs_precision (rpc : RequestedPrecisionConstructor) (value : ℝ) :
    RequestedPrecisionConstructor :=
  { rpc with
    requested_precision := rpc.requested_precision.map fun x =>
      (x.1, { x.2 with abs_convergence_is_required := true, abs_precision := value }) }

/-- Models `RequestedPrecisionConstructor::precision(_value)`: delegates to
`abs_precision`. -/
def precision (rpc : RequestedPrecisionConstructor) (value : ℝ) :
    RequestedPrecisionConstructor :=
  rpc.abs_precision value

/-- Models `RequestedPrecisionConstructor::rel_precision(_value)`. -/
def rel_precision (rpc : RequestedPrecisionConstructor) (value : ℝ) :
    RequestedPrecisionConstructor :=
  { rpc with
    requested_precision := rpc.requested_precision.map fun x =>
      (x.1, { x.2 with rel_convergence_is_required := true, rel_precision := value }) }

end RequestedPrecisionConstructor

/-- The free function `converge(samplers, sampler_name)`
(RequestedPrecisionConstructor.cc): throws `std::runtime_error` when no
sampler has the given name. -/
def converge (samplers : List (String × Sampler)) (sampler_name : String) :
    Except ErrKind RequestedPrecisionConstructor :=
  match lookupA samplers sampler_name with
  | none => .error .runtimeError
  | some sp => .ok (RequestedPrecisionConstructor.init sampler_name sp)

/-- The `ResultsAnalysisFunction` struct (ResultsAnalysisFunction.hh), generic over
the `RunData` and `Results` types.  `eval` returning `.error` models the
C++ callable throwing a `std::exception`. -/
structure ResultsAnalysisFunction (RunData Results : Type _) where
  name : String
  description : String
  shape : List ℤ
  component_names : List String
  eval : RunData → Results → Except Unit (List ℝ)

/-- A double that may be NaN: `none` models
`std::numeric_limits<double>::signaling_NaN()`. -/
abbrev EDouble := Option ℝ

/-- Models `make_analysis(run_data, results, analysis_functions)`
(ResultsAnalysisFunction.hh): evaluate every analysis function, replacing
the output of a function that throws by a NaN vector of its component
count; the exception is caught and never propagates. -/
def make_analysis {RunData Results : Type _} (run_data : RunData)
    (results : Results)
    (analysis_functions : List (String × ResultsAnalysisFunction RunData Results)) :
    List (String × List EDouble) :=
  analysis_functions.foldl
    (fun analysis p =>
      match p.2.eval run_data results with
      | .ok v => emplaceA analysis p.2.name (v.map some)
      | .error _ =>
          emplaceA analysis p.2.name
            (List.replicate p.2.component_names.length (none : EDouble)))
    []

/-- The error keys recorded by `parser.insert_error` in the two parsers
this development models. -/
inductive ParseErr where
  | sampleByMissing
  | sampleByInvalid
  | spacingInvalid
  | periodMissing
  | periodInvalid
  | unknownQuantity (name : String)
  | cutoffErr (tag : ℕ)
  | convergenceErr (tag : ℕ)
deriving DecidableEq

/-- Modelled from the spec: `SamplingParams` (SamplingParams.hh is not
under src/), following the spec and the field-by-field doc comments in StateSampler.hh: defaults
are `BY_PASS`, `LINEAR`, `begin=0`, `samples_per_period=1`, `shift=0`,
`stochastic_sample_period=false`, no quantities, no trajectory sampling.
(`period` is a required option, so its default-constructed value is never
observable through a valid parse.) -/
structure SamplingParams where
  sample_mode : SAMPLE_MODE := .BY_PASS
  sample_method : SAMPLE_METHOD := .LINEAR
  begin : ℝ := 0
  period : ℝ := 1
  samples_per_period : ℝ := 1
  shift : ℝ := 0
  stochastic_sample_period : Bool := false
  sampler_names : List String := []
  do_sample_trajectory : Bool := false
  do_sample_time : Bool := false

/-- The JSON input of `parse(InputParser<SamplingParams>&, ...)`, with one
field per recognised option (`none` = the option is absent). -/
structure SamplingParamsInput where
  sample_by : Option String := none
  spacing : Option String := none
  begin : Option ℝ := none
  period : Option ℝ := none
  samples_per_period : Option ℝ := none
  shift : Option ℝ := none
  stochastic_sample_period : Option Bool := none
  quantities : Option (List String) := none
  sample_trajectory : Option Bool := none

open Classical in
/-- Models `parse(InputParser<SamplingParams>&, sampling_function_names,
time_sampling_allowed)` (SamplingParams_json_io.cc): returns the errors
recorded and the parsed value, which is produced only when no error was
recorded (`parser.valid()`). -/
noncomputable def parseSamplingParams (input : SamplingParamsInput)
    (sampling_function_names : List String) (time_sampling_allowed : Bool) :
    List ParseErr × Option SamplingParams :=
  match input.sample_by with
  | none => ([.sampleByMissing], none)
  | some sm =>
      let p : SamplingParams := {}
      let res1 : List ParseErr × SamplingParams :=
        if sm = "pass" then ([], { p with sample_mode := .BY_PASS })
        else if sm = "step" then ([], { p with sample_mode := .BY_STEP })
        else if time_sampling_allowed ∧ sm = "time" then
          ([], { p with sample_mode := .BY_TIME })
        else ([.sampleByInvalid], p)
      let p := res1.2
      let spacing := input.spacing.getD "linear"
      let res2 : List ParseErr × SamplingParams :=
        if spacing = "linear" then ([], { p with sample_method := .LINEAR })
        else if spacing = "log" then ([], { p with sample_method := .LOG })
        else ([.spacingInvalid], p)
      let p := res2.2
      let p := { p with begin := input.begin.getD 0 }
      let res3 : List ParseErr × SamplingParams :=
        match input.period with
        | none => ([.periodMissing], p)
        | some per => ([], { p with period := per })
      let p := res3.2
      let errsLog : List ParseErr :=
        if p.sample_method = .LOG ∧ p.period ≤ 1 then [.periodInvalid] else []
      let errsLin : List ParseErr :=
        if p.sample_method = .LINEAR ∧ p.period ≤ 0 then [.periodInvalid] else []
      let p := { p with samples_per_period := input.samples_per_period.getD 1 }
      let p := { p with shift := input.shift.getD 0 }
      let p := { p with
        stochastic_sample_period := input.stochastic_sample_period.getD false }
      let p := { p with sampler_names := input.quantities.getD p.sampler_names }
      let errsQ : List ParseErr :=
        (p.sampler_names.filter
          (fun n => ¬ sampling_function_names.contains n)).map .unknownQuantity
      let p := { p with
        do_sample_trajectory := input.sample_trajectory.getD p.do_sample_trajectory }
      let p := { p with do_sample_time := time_sampling_allowed }
      let errs := res1.1 ++ res2.1 ++ res3.1 ++ errsLog ++ errsLin ++ errsQ
      (errs, if errs.isEmpty then some p else none)

/-- The `CompletionCheckParams<BasicStatistics>` record restricted to the fields the
parser assigns.  `calc_statistics_f` is
`BasicStatisticsCalculator(confidence, weighted_observations_method,
n_resamples)`, represented here by those three parameters; the cutoff
parameters (whose type is not under src/) are not represented. -/
structure CompletionCheckParams where
  confidence : ℝ := 0.95
  weighted_observations_method : ℤ := 1
  n_resamples : ℤ := 10000
  requested_precision : List (SamplerComponent × RequestedPrecision) := []
  log_spacing : Bool := false
  check_begin : ℝ := 0
  check_period : ℝ := 10
  checks_per_period : ℝ := 1
  check_shift : ℝ := 1

/-- The JSON input of `parse(InputParser<CompletionCheckParams>&, ...)`.
The `cutoff` and `convergence` subobjects are represented by their effect:
the errors each subparse records (they only ever add errors) and the
requested-precision entries the `convergence` array contributes. -/
structure CompletionCheckParamsInput where
  confidence : Option ℝ := none
  weighted_observations_method : Option ℤ := none
  n_resamples : Option ℤ := none
  spacing : Option String := none
  begin : Option ℝ := none
  period : Option ℝ := none
  checks_per_period : Option ℝ := none
  shift : Option ℝ := none
  cutoff_errors : List ParseErr := []
  convergence_errors : List ParseErr := []
  convergence_precision : List (SamplerComponent × RequestedPrecision) := []

open Classical in
/-- Models `parse(InputParser<CompletionCheckParams<BasicStatistics>>&,
sampling_functions)` (CompletionCheck_json_io.hh): returns the errors
recorded and the parsed value, produced only when no error was recorded. -/
noncomputable def parseCompletionCheckParams
    (input : CompletionCheckParamsInput) :
    List ParseErr × Option CompletionCheckParams :=
  let p : CompletionCheckParams := {
    confidence := input.confidence.getD 0.95,
    weighted_observations_method := input.weighted_observations_method.getD 1,
    n_resamples := input.n_resamples.getD 10000 }
  let errsCutoff := input.cutoff_errors
  let p := { p with requested_precision := input.convergence_precision }
  let errsConv := input.convergence_errors
  let spacing := input.spacing.getD "linear"
  let resSp : List ParseErr × CompletionCheckParams :=
    if spacing = "linear" then ([], { p with log_spacing := false })
    else if spacing = "log" then ([], { p with log_spacing := true })
    else ([.spacingInvalid], p)
  let p := resSp.2
  let p := { p with check_begin := input.begin.getD 0 }
  let p := { p with check_period := input.period.getD 10 }
  let errsLog : List ParseErr :=
    if p.log_spacing = true ∧ p.check_period ≤ 1 then [.periodInvalid] else []
  let errsLin : List ParseErr :=
    if p.log_spacing = false ∧ p.check_period ≤ 0 then [.periodInvalid] else []
  let p := { p with checks_per_period := input.checks_per_period.getD 1 }
  let p := { p with check_shift := input.shift.getD 1 }
  let errs := errsCutoff ++ errsConv ++ resSp.1 ++ errsLog ++ errsLin
  (errs, if errs.isEmpty then some p else none)

/-- The `FixedConfigGenerator` class (FixedConfigGenerator.hh): a `ConfigGenerator`
holding one fixed configuration. -/
structure FixedConfigGenerator (Config : Type _) where
  m_configuration : Config

/-- Models `FixedConfigGenerator::operator()(conditions, completed_runs)`:
returns the stored configuration; the object itself is not mutated, so the
call also returns the (unchanged) generator. -/
def FixedConfigGenerator.call {Config ValueMap RunData : Type _}
    (g : FixedConfigGenerator Config) (conditions : ValueMap)
    (completed_runs : List RunData) : Config × FixedConfigGenerator Config :=
  (g.m_configuration, g)

/-- Run a `FixedConfigGenerator` through a whole sequence of calls,
collecting the returned configurations and threading the generator. -/
def FixedConfigGenerator.callAll {Config ValueMap RunData : Type _}
    (g : FixedConfigGenerator Config) (argss : List (ValueMap × List RunData)) :
    List Config × FixedConfigGenerator Config :=
  argss.foldl
    (fun acc a =>
      let r := acc.2.call a.1 a.2
      (acc.1 ++ [r.1], r.2))
    ([], g)

section ClaimC9

variable {Config ValueMap RunData : Type _}

/-- Claim C9: `FixedConfigGenerator::operator()` returns exactly the
configuration supplied at construction, independent of the conditions,
the completed-run list, and how many times it has been called: every call
in any sequence returns the constructed configuration and leaves the
generator unchanged. -/
theorem claim_C9_fixed_config_generator (cfg : Config)
    (argss : List (ValueMap × List RunData)) :
    FixedConfigGenerator.callAll (FixedConfigGenerator.mk cfg) argss =
      (argss.map fun _ => cfg, FixedConfigGenerator.mk cfg) := by
  have h : ∀ (l : List (ValueMap × List RunData)) (acc : List Config),
      List.foldl
        (fun (acc : List Config × FixedConfigGenerator Config) a =>
          let r := acc.2.call a.1 a.2
          (acc.1 ++ [r.1], r.2))
        (acc, FixedConfigGenerator.mk cfg) l =
        (acc ++ l.map fun _ => cfg, FixedConfigGenerator.mk cfg) := by
    intro l
    induction l with
    | nil => simp
    | cons a l ih =>
        intro acc
        rw [List.foldl_cons]
        exact (ih (acc ++ [cfg])).trans (by simp)
  simpa [FixedConfigGenerator.callAll] using h argss []

end ClaimC9

/-- Claim C10: `precision(v)` produces exactly the same
requested-precision map as `abs_precision(v)`: it is the identical
function call, and for every selected component it sets
`abs_convergence_is_required` to `true` and `abs_precision` to `v` while
taking `rel_convergence_is_required` and `rel_precision` unchanged from
the previous entry. -/
theorem claim_C10_precision_is_abs_precision
    (rpc : RequestedPrecisionConstructor) (v : ℝ) :
    rpc.precision v = rpc.abs_precision v ∧
    (rpc.precision v).requested_precision =
      rpc.requested_precision.map fun x =>
        (x.1,
          { abs_convergence_is_required := true,
            abs_precision := v,
            rel_convergence_is_required := x.2.rel_convergence_is_required,
            rel_precision := x.2.rel_precision }) := by
  refine ⟨rfl, ?_⟩
  simp [RequestedPrecisionConstructor.precision,
    RequestedPrecisionConstructor.abs_precision]

section ClaimC3

variable {Config : Type _}

theorem int_succ_rollover (a S : ℤ) (hS : 0 < S) (h : a % S + 1 = S) :
    (a + 1) % S = 0 ∧ (a + 1) / S = a / S + 1 := by
  have e : S * (a / S) + a % S = a := Int.ediv_add_emod a S
  have h2 : a + 1 = S * (a / S + 1) := by
    have h3 : S * (a / S + 1) = S * (a / S) + S := by ring
    rw [h3]; linarith
  constructor
  · rw [h2]; exact Int.mul_emod_right S _
  · rw [h2, Int.mul_ediv_cancel_left _ (ne_of_gt hS)]

theorem int_succ_no_rollover (a S : ℤ) (h0 : 0 ≤ a % S) (h : a % S + 1 < S) :
    (a + 1) % S = a % S + 1 ∧ (a + 1) / S = a / S := by
  have e : S * (a / S) + a % S = a := Int.ediv_add_emod a S
  have h2 : a + 1 = a % S + 1 + S * (a / S) := by linarith
  constructor
  · rw [h2, Int.add_mul_emod_self_left, Int.emod_eq_of_lt (by linarith) h]
  · rw [h2, Int.add_mul_ediv_left _ _ (by omega : S ≠ 0),
      Int.ediv_eq_zero_of_lt (by linarith) h, zero_add]

theorem increment_step_eq (s : SState Config) :
    s.increment_step =
      if s.step + 1 = s.steps_per_pass then
        { s with step := 0, pass := s.pass + 1, count := s.count + 1 }
      else
        { s with step := s.step + 1,
                 count := if s.sample_mode = .BY_STEP then s.count + 1 else s.count } := by
  unfold SState.increment_step
  by_cases h : s.step + 1 = s.steps_per_pass
  · by_cases hm : s.sample_mode = .BY_STEP <;> simp [h, hm]
  · simp [h]

theorem increment_step_iterate (s0 : SState Config) (S : ℤ) (N : ℕ)
    (hS : 1 ≤ S) (hstep : s0.step = 0) (hpass : s0.pass = 0)
    (hcount : s0.count = 0) (hspp : s0.steps_per_pass = S) :
    (SState.increment_step^[N] s0).step = (N : ℤ) % S ∧
    (SState.increment_step^[N] s0).pass = (N : ℤ) / S ∧
    (SState.increment_step^[N] s0).count =
      (if s0.sample_mode = .BY_STEP then (N : ℤ) else (N : ℤ) / S) ∧
    (SState.increment_step^[N] s0).sample_mode = s0.sample_mode ∧
    (SState.increment_step^[N] s0).steps_per_pass = S := by
  have hS0 : 0 < S := by linarith
  induction N with
  | zero => simp [hstep, hpass, hcount, hspp]
  | succ N ih =>
      obtain ⟨ihstep, ihpass, ihcount, ihmode, ihspp⟩ := ih
      rw [Function.iterate_succ_apply', increment_step_eq]
      set s := SState.increment_step^[N] s0 with hs
      have hmod_nonneg : 0 ≤ (N : ℤ) % S := Int.emod_nonneg _ (ne_of_gt hS0)
      have hmod_lt : (N : ℤ) % S < S := Int.emod_lt_of_pos _ hS0
      have hcast : ((N + 1 : ℕ) : ℤ) = (N : ℤ) + 1 := by push_cast; ring
      by_cases hro : (N : ℤ) % S + 1 = S
      · obtain ⟨hm, hd⟩ := int_succ_rollover (N : ℤ) S hS0 hro
        rw [if_pos (by rw [ihstep, ihspp]; exact hro)]
        refine ⟨by simpa [hcast] using hm.symm, by simp [hcast, hd, ihpass], ?_,
          by simpa using ihmode, by simpa using ihspp⟩
        by_cases hmode : s0.sample_mode = .BY_STEP
        · simp only [hmode, if_pos] at ihcount ⊢
          simp [ihcount, hcast]
        · simp only [hmode, if_neg, if_false] at ihcount ⊢
          simp [ihcount, hcast, hd]
      · have hlt : (N : ℤ) % S + 1 < S := lt_of_le_of_ne (by omega) hro
        obtain ⟨hm, hd⟩ := int_succ_no_rollover (N : ℤ) S hmod_nonneg hlt
        rw [if_neg (by rw [ihstep, ihspp]; exact hro)]
        refine ⟨by simp [hcast, hm, ihstep], by simp [hcast, hd, ihpass], ?_,
          by simpa using ihmode, by simpa using ihspp⟩
        by_cases hmode : s0.sample_mode = .BY_STEP
        · simp only [hmode, if_pos] at ihcount ⊢
          simp [ihmode, hmode, ihcount, hcast]
        · simp only [hmode, if_neg, if_false] at ihcount ⊢
          simp [ihmode, hmode, ihcount, hcast, hd]

/-- Claim C3: for every `StateSampler` with `steps_per_pass = S ≥ 1`,
after `N` calls to `increment_step` starting from the reset counters
(`step = pass = count = 0`): `step = N mod S`, `pass = ⌊N / S⌋`, and
`count = N` when `sample_mode == BY_STEP` and `⌊N / S⌋` otherwise. -/
theorem claim_C3_increment_step_counters (s0 : SState Config) (S : ℤ) (N : ℕ)
    (hS : 1 ≤ S) (hstep : s0.step = 0) (hpass : s0.pass = 0)
    (hcount : s0.count = 0) (hspp : s0.steps_per_pass = S) :
    (SState.increment_step^[N] s0).step = (N : ℤ) % S ∧
    (SState.increment_step^[N] s0).pass = (N : ℤ) / S ∧
    (SState.increment_step^[N] s0).count =
      (if s0.sample_mode = .BY_STEP then (N : ℤ) else (N : ℤ) / S) :=
  ⟨(increment_step_iterate s0 S N hS hstep hpass hcount hspp).1,
   (increment_step_iterate s0 S N hS hstep hpass hcount hspp).2.1,
   (increment_step_iterate s0 S N hS hstep hpass hcount hspp).2.2.1⟩

end ClaimC3

/-- A fixed all-zero random stream, for concrete instances. -/
def zeroRNG : RNG := ⟨fun _ => 0, 0⟩

/-- A concrete deterministic `StateSampler` over the `Unit` configuration:
`BY_PASS`, `LINEAR`, `begin = 0`, `period = 10`, `samples_per_period = 1`,
`steps_per_pass = 2`, no functions, freshly reset counters. -/
def baseSampler : SState Unit :=
  { rng := zeroRNG, sample_mode := .BY_PASS, sample_method := .LINEAR,
    begin := 0, period := 10, samples_per_period := 1, shift := 0,
    stochastic_sample_period := false, do_sample_trajectory := false,
    do_sample_time := false, functions := [], step := 0, pass := 0,
    steps_per_pass := 2, count := 0, time := 0, n_accept := 0, n_reject := 0,
    next_sample_count := 0, next_sample_time := 0, samplers := [],
    sample_count := [], sample_time := [], sample_weight := ⟨[], [], []⟩,
    sample_clocktime := [], sample_trajectory := [] }

/-- A trivial sampling environment over the `Unit` configuration. -/
def trivialEnv : Env Unit := ⟨(), 0, fun _ => []⟩

/-- Witness for claim C3 at `S = 2`, `N = 5`. -/
theorem claim_C3_witness :
    (SState.increment_step^[5] baseSampler).step = (5 : ℤ) % 2 ∧
    (SState.increment_step^[5] baseSampler).pass = (5 : ℤ) / 2 ∧
    (SState.increment_step^[5] baseSampler).count =
      (if baseSampler.sample_mode = .BY_STEP then (5 : ℤ) else (5 : ℤ) / 2) :=
  claim_C3_increment_step_counters baseSampler 2 5 (by norm_num) rfl rfl rfl rfl

/-- A `StateSampler` in `BY_TIME` mode whose next sample is due at time 1. -/
def byTimeSampler : SState Unit :=
  { baseSampler with sample_mode := .BY_TIME, next_sample_time := 1 }

/-- Claim C1 (evidence of the code bug): at a `StateSampler` with
`sample_mode == BY_TIME` and `event_time = 2 ≥ next_sample_time = 1`,
`sample_data_by_time_if_due` takes no sample and does not set `time`: the
state is returned entirely unchanged, because the guard in the source
tests `sample_mode != SAMPLE_MODE::BY_TIME` instead of `==` (and never
assigns `time = next_sample_time`). -/
theorem claim_C1_by_time_guard_inverted :
    byTimeSampler.sample_mode = .BY_TIME ∧
    (2 : ℝ) ≥ byTimeSampler.next_sample_time ∧
    byTimeSampler.sample_data_by_time_if_due trivialEnv 2 = .ok byTimeSampler := by
  refine ⟨rfl, by norm_num [byTimeSampler, baseSampler], ?_⟩
  unfold SState.sample_data_by_time_if_due
  rw [if_neg]
  rintro ⟨hmode, -⟩
  exact hmode rfl

section ClaimC4

variable {Config : Type _}

theorem sample_at_det (s : SState Config)
    (hdet : s.stochastic_sample_period = false) (n : ℕ) :
    s.sample_at n =
      some ((match s.sample_method with
        | .LINEAR => s.begin + s.period / s.samples_per_period * (n : ℝ)
        | .LOG => s.begin + s.period ^ (((n : ℝ) + s.shift) / s.samples_per_period)),
        s.rng) := by
  unfold SState.sample_at
  rw [if_neg (by simp [hdet])]
  cases hm : s.sample_method <;> simp [hm]

theorem cround_nearest (x : ℝ) : |((cround x : ℤ) : ℝ) - x| ≤ 1 / 2 := by
  unfold cround
  by_cases h : 0 ≤ x
  · rw [if_pos h, abs_le]
    have h1 := Int.lt_floor_add_one (x + 1 / 2)
    have h2 := Int.floor_le (x + 1 / 2)
    constructor <;> linarith
  · rw [if_neg h, abs_le]
    have h1 := Int.le_ceil (x - 1 / 2)
    have h2 := Int.ceil_lt_add_one (x - 1 / 2)
    constructor <;> linarith

theorem push_data_eq (s : SState Config) (env : Env Config) :
    s.push_data env =
      match SState.push_functions env s.samplers s.functions 0 with
      | .error e => .error e
      | .ok samplers' =>
          .ok { s with
            sample_count := s.sample_count ++ [s.count],
            sample_time :=
              if s.do_sample_time then s.sample_time ++ [s.time] else s.sample_time,
            sample_clocktime := s.sample_clocktime ++ [env.clocktime],
            sample_trajectory :=
              if s.do_sample_trajectory then
                s.sample_trajectory ++ [env.configuration]
              else s.sample_trajectory,
            samplers := samplers' } := by
  unfold SState.push_data
  by_cases h1 : s.do_sample_time <;> by_cases h2 : s.do_sample_trajectory <;>
    simp [h1, h2]

/-- The deterministic sample target of a `StateSampler`, as a formula. -/
noncomputable def detTarget (s : SState Config) (n : ℕ) : ℝ :=
  match s.sample_method with
  | .LINEAR => s.begin + s.period / s.samples_per_period * (n : ℝ)
  | .LOG => s.begin + s.period ^ (((n : ℝ) + s.shift) / s.samples_per_period)

/-- The `LOG`-spacing example of the spec: `begin = 0`, `period = 10`,
`samples_per_period = 1`, `shift = 0`. -/
def logSampler : SState Unit := { baseSampler with sample_method := .LOG }

/-- Claim C4: with `stochastic_sample_period` false, `sample_at(n)` is
exactly `begin + (period / samples_per_period) · n` for `LINEAR` and
`begin + period ^ ((n + shift) / samples_per_period)` for `LOG`; for
`BY_STEP`/`BY_PASS` modes a returning `sample_data` call sets
`next_sample_count` to this value at the new sample index rounded to the
nearest integer (`cround`, which is never further than 1/2 from its
argument); and with `begin = 0`, `period = 10`, `samples_per_period = 1`,
`shift = 0`, log spacing, the successive targets are 1, 10, 100, 1000. -/
theorem claim_C4_deterministic_schedule (s : SState Config)
    (hdet : s.stochastic_sample_period = false) :
    (s.sample_method = .LINEAR → ∀ n : ℕ,
       s.sample_at n = some (s.begin + s.period / s.samples_per_period * (n : ℝ), s.rng)) ∧
    (s.sample_method = .LOG → ∀ n : ℕ,
       s.sample_at n =
         some (s.begin + s.period ^ (((n : ℝ) + s.shift) / s.samples_per_period), s.rng)) ∧
    (∀ x : ℝ, |((cround x : ℤ) : ℝ) - x| ≤ 1 / 2) ∧
    (∀ (env : Env Config) (s' : SState Config), s.sample_mode ≠ .BY_TIME →
       s.sample_data env = .ok s' →
       s'.next_sample_count = cround (detTarget s (s.sample_count.length + 1))) ∧
    (logSampler.sample_at 0 = some (1, logSampler.rng) ∧
     logSampler.sample_at 1 = some (10, logSampler.rng) ∧
     logSampler.sample_at 2 = some (100, logSampler.rng) ∧
     logSampler.sample_at 3 = some (1000, logSampler.rng)) := by
  refine ⟨?_, ?_, cround_nearest, ?_, ?_⟩
  · intro hm n
    rw [sample_at_det s hdet n, hm]
  · intro hm n
    rw [sample_at_det s hdet n, hm]
  · intro env s' hmode h
    unfold SState.sample_data at h
    rw [push_data_eq] at h
    cases hpf : SState.push_functions env s.samplers s.functions 0 with
    | error e => rw [hpf] at h; exact absurd h (by simp)
    | ok samplers' =>
        rw [hpf] at h
        simp only at h
        rw [if_neg (by simpa using hmode)] at h
        rw [sample_at_det _ (by simpa using hdet)] at h
        simp only at h
        split at h
        · exact absurd h (by simp)
        · cases hm : s.sample_method <;>
            · rw [hm] at h
              simp only [SDResult.ok.injEq] at h
              subst h
              simp [detTarget, hm]
  · refine ⟨?_, ?_, ?_, ?_⟩ <;>
      · rw [sample_at_det logSampler rfl]
        simp only [logSampler, baseSampler]
        norm_num

end ClaimC4

/-- Witness for claim C4: the deterministic `LINEAR` target at `n = 3`. -/
theorem claim_C4_witness :
    baseSampler.sample_at 3 =
      some (baseSampler.begin +
        baseSampler.period / baseSampler.samples_per_period * ((3 : ℕ) : ℝ),
        baseSampler.rng) :=
  (claim_C4_deterministic_schedule baseSampler rfl).1 rfl 3

section ClaimC6

theorem lookupA_append {κ α : Type _} [DecidableEq κ]
    (m1 m2 : List (κ × α)) (k : κ) :
    lookupA (m1 ++ m2) k =
      match lookupA m1 k with
      | some v => some v
      | none => lookupA m2 k := by
  induction m1 with
  | nil => simp [lookupA]
  | cons q rest ih =>
      obtain ⟨k', v'⟩ := q
      by_cases h : k' = k <;> simp [lookupA, h, ih]

theorem foldl_emplaceA_append {κ α β : Type _} [DecidableEq κ]
    (key : β → κ) (val : β → α) :
    ∀ (fs : List β) (acc : List (κ × α)),
      (∀ f ∈ fs, lookupA acc (key f) = none) →
      (fs.map key).Nodup →
      fs.foldl (fun m f => emplaceA m (key f) (val f)) acc =
        acc ++ fs.map fun f => (key f, val f) := by
  intro fs
  induction fs with
  | nil => simp
  | cons f fs ih =>
      intro acc hfresh hnodup
      rw [List.foldl_cons,
        emplaceA_of_lookupA_eq_none acc (key f) (val f) (hfresh f (by simp))]
      rw [List.map_cons, List.nodup_cons] at hnodup
      have hfresh' : ∀ g ∈ fs, lookupA (acc ++ [(key f, val f)]) (key g) = none := by
        intro g hg
        rw [lookupA_append, hfresh g (by simp [hg])]
        have hne : key f ≠ key g := fun he =>
          hnodup.1 (he ▸ List.mem_map_of_mem key hg)
        simp [lookupA, hne]
      rw [ih (acc ++ [(key f, val f)]) hfresh' hnodup.2]
      simp

/-- The output entry `make_analysis` records for one analysis function:
the function's value, or a NaN vector of its component count if it threw. -/
def analysisEntry {RunData Results : Type _} (run_data : RunData)
    (results : Results) (f : ResultsAnalysisFunction RunData Results) :
    List EDouble :=
  match f.eval run_data results with
  | .ok v => v.map some
  | .error _ => List.replicate f.component_names.length (none : EDouble)

/-- Claim C6: for every run_data, results, and analysis-function map
(whose entries are keyed by their function's name, the
`ResultsAnalysisFunctionMap` convention), `make_analysis` returns exactly
one entry per analysis function, in map order: a NaN vector of length
`component_names.size()` for a function that throws, the returned value
for every other function; the exception never propagates (the result is
total). -/
theorem claim_C6_make_analysis {RunData Results : Type _} (run_data : RunData)
    (results : Results)
    (fs : List (String × ResultsAnalysisFunction RunData Results))
    (hkeys : ∀ p ∈ fs, p.1 = p.2.name)
    (hnodup : (fs.map Prod.fst).Nodup) :
    make_analysis run_data results fs =
      fs.map fun p => (p.2.name, analysisEntry run_data results p.2) := by
  unfold make_analysis
  have hbody :
      (fun (analysis : List (String × List EDouble))
           (p : String × ResultsAnalysisFunction RunData Results) =>
        match p.2.eval run_data results with
        | .ok v => emplaceA analysis p.2.name (v.map some)
        | .error _ =>
            emplaceA analysis p.2.name
              (List.replicate p.2.component_names.length (none : EDouble))) =
      fun analysis p =>
        emplaceA analysis p.2.name (analysisEntry run_data results p.2) := by
    funext analysis p
    unfold analysisEntry
    cases p.2.eval run_data results <;> rfl
  rw [hbody]
  have hnames : fs.map (fun p => p.2.name) = fs.map Prod.fst :=
    (List.map_congr_left fun p hp => (hkeys p hp).symm)
  rw [foldl_emplaceA_append (fun p => p.2.name)
    (fun p => analysisEntry run_data results p.2) fs [] (by simp [lookupA])
    (hnames ▸ hnodup)]
  simp

end ClaimC6

/-- A concrete analysis-function map: `"a"` throws, `"b"` returns `[7]`. -/
def analysisFns : List (String × ResultsAnalysisFunction Unit Unit) :=
  [("a", ⟨"a", "", [], ["x", "y"], fun _ _ => .error ()⟩),
   ("b", ⟨"b", "", [], ["z"], fun _ _ => .ok [7]⟩)]

/-- Witness for claim C6: the throwing function's entry is a NaN vector
of its component count; the other entry is the returned value. -/
theorem claim_C6_witness :
    make_analysis () () analysisFns =
      [("a", [(none : EDouble), none]), ("b", [some (7 : ℝ)])] := by
  have h := claim_C6_make_analysis () () analysisFns
    (by intro p hp; fin_cases hp <;> rfl) (by simp [analysisFns])
  simpa [analysisFns, analysisEntry] using h

section ClaimC7

/-- The period option is "given with linear spacing and `≤ 0`, or with log
spacing and `≤ 1`" (spacing is linear when absent). -/
def badPeriod (spacing : Option String) (period : Option ℝ) : Prop :=
  (∃ p : ℝ, period = some p ∧
    (spacing = none ∨ spacing = some "linear") ∧ p ≤ 0) ∨
  (∃ p : ℝ, period = some p ∧ spacing = some "log" ∧ p ≤ 1)

/-- Claim C7: both the sampling-parameter parser and the
completion-check-parameter parser reject the configuration — an error is
recorded and no value is produced — whenever `period ≤ 0` is given with
linear spacing or `period ≤ 1` is given with log spacing. -/
theorem claim_C7_period_rejected :
    (∀ (input : SamplingParamsInput) (fnames : List String) (tsa : Bool),
       badPeriod input.spacing input.period →
       (parseSamplingParams input fnames tsa).1 ≠ [] ∧
       (parseSamplingParams input fnames tsa).2 = none) ∧
    (∀ input : CompletionCheckParamsInput,
       badPeriod input.spacing input.period →
       (parseCompletionCheckParams input).1 ≠ [] ∧
       (parseCompletionCheckParams input).2 = none) := by
  constructor
  · intro input fnames tsa hbad
    cases hsb : input.sample_by with
    | none => simp [parseSamplingParams, hsb]
    | some sm =>
        rcases hbad with ⟨p, hp, hsp, hple⟩ | ⟨p, hp, hsp, hple⟩
        · have hspval : input.spacing.getD "linear" = "linear" := by
            rcases hsp with h | h <;> simp [h]
          simp only [parseSamplingParams, hsb, hp, hspval]
          simp [hple]
        · simp only [parseSamplingParams, hsb, hp, hsp]
          simp [hple]
  · intro input hbad
    rcases hbad with ⟨p, hp, hsp, hple⟩ | ⟨p, hp, hsp, hple⟩
    · have hspval : input.spacing.getD "linear" = "linear" := by
        rcases hsp with h | h <;> simp [h]
      simp only [parseCompletionCheckParams, hp, hspval]
      simp [hple]
    · simp only [parseCompletionCheckParams, hp, hsp]
      simp [hple]

end ClaimC7

/-- Witness for claim C7: `period = -1` with default (linear) spacing is
rejected by the sampling-parameter parser, and `period = 1/2` with log
spacing is rejected by the completion-check-parameter parser. -/
theorem claim_C7_witness :
    ((parseSamplingParams
        { sample_by := some "pass", period := some (-1) } ["x"] false).2 = none ∧
     (parseCompletionCheckParams
        { spacing := some "log", period := some (1 / 2) }).2 = none) :=
  ⟨(claim_C7_period_rejected.1
      { sample_by := some "pass", period := some (-1) } ["x"] false
      (Or.inl ⟨-1, rfl, Or.inl rfl, by norm_num⟩)).2,
   (claim_C7_period_rejected.2
      { spacing := some "log", period := some (1 / 2) }
      (Or.inr ⟨1 / 2, rfl, rfl, by norm_num⟩)).2⟩

section ClaimC8

/-- Claim C8 (amended): requesting a convergence precision throws a
`std::runtime_error` and leaves the map unchanged when the sampler name is
not found (`set_abs_precision_by_component_index` over the sampling
functions, and `converge` over the samplers) or when the component index
is out of range (`set_abs_precision_by_component_index` and
`RequestedPrecisionConstructor::component`); otherwise
`set_abs_precision_by_component_index` adds exactly one entry for the
named component provided no entry for it already exists (`emplace` leaves
a pre-existing entry unchanged), and `component` narrows a map containing
the selected component to exactly that one component. -/
theorem claim_C8_requested_precision_errors :
    (∀ (m : List (SamplerComponent × RequestedPrecision))
       (fns : List (String × StateSamplingFunction)) (name : String)
       (idx : ℕ) (v : ℝ),
       lookupA fns name = none →
       set_abs_precision_by_component_index m fns name idx v =
         (m, some .runtimeError)) ∧
    (∀ (m : List (SamplerComponent × RequestedPrecision))
       (fns : List (String × StateSamplingFunction)) (name : String)
       (idx : ℕ) (v : ℝ) (f : StateSamplingFunction),
       lookupA fns name = some f → f.component_names.length ≤ idx →
       set_abs_precision_by_component_index m fns name idx v =
         (m, some .runtimeError)) ∧
    (∀ (m : List (SamplerComponent × RequestedPrecision))
       (fns : List (String × StateSamplingFunction)) (name : String)
       (idx : ℕ) (v : ℝ) (f : StateSamplingFunction)
       (h : idx < f.component_names.length),
       lookupA fns name = some f →
       lookupA m ⟨name, idx, f.component_names.get ⟨idx, h⟩⟩ = none →
       set_abs_precision_by_component_index m fns name idx v =
         (m ++ [(⟨name, idx, f.component_names.get ⟨idx, h⟩⟩,
                 RequestedPrecision.abs v)], none)) ∧
    (∀ (samplers : List (String × Sampler)) (name : String),
       lookupA samplers name = none →
       converge samplers name = .error .runtimeError) ∧
    (∀ (rpc : RequestedPrecisionConstructor) (idx : ℕ),
       rpc.sampler.component_names.length ≤ idx →
       rpc.component idx = (rpc, some .runtimeError)) ∧
    (∀ (rpc : RequestedPrecisionConstructor) (idx : ℕ)
       (h : idx < rpc.sampler.component_names.length)
       (chosen : RequestedPrecision),
       lookupA rpc.requested_precision
         ⟨rpc.sampler_name, idx, rpc.sampler.component_names.get ⟨idx, h⟩⟩ =
           some chosen →
       rpc.component idx =
         ({ rpc with requested_precision :=
             [(⟨rpc.sampler_name, idx,
                rpc.sampler.component_names.get ⟨idx, h⟩⟩, chosen)] },
          none)) := by
  refine ⟨?_, ?_, ?_, ?_, ?_, ?_⟩
  · intro m fns name idx v hnone
    unfold set_abs_precision_by_component_index
    rw [hnone]
  · intro m fns name idx v f hsome hle
    unfold set_abs_precision_by_component_index
    rw [hsome]
    simp only []
    rw [dif_neg (by omega)]
  · intro m fns name idx v f h hsome habsent
    unfold set_abs_precision_by_component_index
    rw [hsome]
    simp only []
    rw [dif_pos h, emplaceA_of_lookupA_eq_none _ _ _ habsent]
  · intro samplers name hnone
    unfold converge
    rw [hnone]
  · intro rpc idx hle
    unfold RequestedPrecisionConstructor.component
    rw [dif_neg (by omega)]
  · intro rpc idx h chosen hfound
    unfold RequestedPrecisionConstructor.component
    rw [dif_pos h]
    simp only []
    rw [hfound]

end ClaimC8

/-- A sampling function with one component, named `"f"`. -/
def precFn : StateSamplingFunction := ⟨"f", "", [], ["0"]⟩

/-- A one-entry sampling-function map for `precFn`. -/
def precFns : List (String × StateSamplingFunction) := [("f", precFn)]

/-- The sampler component `("f", 0, "0")`. -/
def precComp : SamplerComponent := ⟨"f", 0, "0"⟩

/-- A requested-precision map already containing `precComp`, with a
default-constructed (non-requiring) precision entry. -/
def precMap0 : List (SamplerComponent × RequestedPrecision) := [(precComp, {})]

/-- Counterexample to claim C8 as stated: when the requested-precision map
already contains an entry for the named component,
`set_abs_precision_by_component_index` succeeds (sampler name found,
index in range) yet adds no entry at all: `std::map::emplace` is a no-op
on an existing key, so the map still holds the old entry — with
`abs_convergence_is_required` false — rather than gaining exactly one
`RequestedPrecision::abs(value)` entry. -/
theorem claim_C8_counterexample :
    set_abs_precision_by_component_index precMap0 precFns "f" 0 (5 / 2) =
      (precMap0, none) ∧
    (lookupA precMap0 precComp).map
      (fun r => r.abs_convergence_is_required) = some false := by
  constructor
  · unfold set_abs_precision_by_component_index
    have h1 : lookupA precFns "f" = some precFn := by simp [precFns, lookupA]
    rw [h1]
    simp only []
    rw [dif_pos (by simp [precFn])]
    have h2 : emplaceA precMap0
        ⟨"f", 0, precFn.component_names.get ⟨0, by simp [precFn]⟩⟩
        (RequestedPrecision.abs (5 / 2)) = precMap0 := by
      apply emplaceA_of_lookupA_isSome
      simp [precMap0, precComp, precFn, lookupA]
    rw [h2]
  · simp [precMap0, precComp, lookupA]

/-- Witness for claim C8 (amended): on a map not yet containing the
component, the call adds exactly the one `abs`-requesting entry; and the
out-of-range index 7 throws `std::runtime_error` leaving the map
unchanged. -/
theorem claim_C8_witness :
    set_abs_precision_by_component_index [] precFns "f" 0 (5 / 2) =
      ([(precComp, RequestedPrecision.abs (5 / 2))], none) ∧
    set_abs_precision_by_component_index precMap0 precFns "f" 7 (5 / 2) =
      (precMap0, some .runtimeError) := by
  constructor
  · have h := (claim_C8_requested_precision_errors).2.2.1 [] precFns "f" 0 (5 / 2)
      precFn (by simp [precFn]) (by simp [precFns, lookupA]) (by simp [lookupA])
    simpa [precComp, precFn] using h
  · exact (claim_C8_requested_precision_errors).2.1 precMap0 precFns "f" 7 (5 / 2)
      precFn (by simp [precFns, lookupA]) (by simp [precFn])

section ClaimC5

variable {Config : Type _}

theorem lookupA_updateA {κ α : Type _} [DecidableEq κ]
    (m : List (κ × α)) (k k' : κ) (f : α → α) :
    lookupA (updateA m k f) k' =
      if k = k' then (lookupA m k').map f else lookupA m k' := by
  induction m with
  | nil => by_cases h : k = k' <;> simp [updateA, lookupA, h]
  | cons q rest ih =>
      obtain ⟨a, b⟩ := q
      by_cases ha : a = k
      · subst ha
        by_cases hk : a = k'
        · subst hk; simp [updateA, lookupA]
        · simp [updateA, lookupA, hk, ih]
      · by_cases hk : a = k'
        · subst hk
          have : k ≠ a := fun he => ha he.symm
          simp [updateA, lookupA, ha, this]
        · simp [updateA, lookupA, ha, hk, ih]

theorem push_back_ok (sp : Sampler) (v : List ℝ)
    (h : v.length = sp.component_names.length) :
    sp.push_back v = .ok { sp with values := sp.values ++ [v] } := by
  unfold Sampler.push_back
  rw [if_pos h]

theorem push_functions_isOk (env : Env Config) :
    ∀ (fs : List StateSamplingFunction) (sps : List (String × Sampler)) (i : ℕ),
      (∀ (j : ℕ) (hj : j < fs.length), ∃ sp,
         lookupA sps (fs.get ⟨j, hj⟩).name = some sp ∧
         (env.fval (i + j)).length = sp.component_names.length) →
      ∃ sps', SState.push_functions env sps fs i = .ok sps' ∧
        sps'.map Prod.fst = sps.map Prod.fst := by
  intro fs
  induction fs with
  | nil => intro sps i _; exact ⟨sps, rfl, rfl⟩
  | cons f fs ih =>
      intro sps i hyp
      obtain ⟨sp, hlook, hw⟩ := hyp 0 (by simp)
      simp only [List.get] at hlook hw
      rw [Nat.add_zero] at hw
      have hpush := push_back_ok sp (env.fval i) hw
      have hrec : ∀ (j : ℕ) (hj : j < fs.length), ∃ sp2,
          lookupA (updateA sps f.name
            (fun _ => { sp with values := sp.values ++ [env.fval i] }))
            ((fs.get ⟨j, hj⟩).name) = some sp2 ∧
          (env.fval (i + 1 + j)).length = sp2.component_names.length := by
        intro j hj
        obtain ⟨sp2, hlook2, hw2⟩ := hyp (j + 1) (by simpa using hj)
        have hlook2' : lookupA sps (fs.get ⟨j, hj⟩).name = some sp2 := hlook2
        have hw2' : (env.fval (i + 1 + j)).length = sp2.component_names.length := by
          have hidx : i + (j + 1) = i + 1 + j := by ring
          rw [← hidx]; exact hw2
        rw [lookupA_updateA]
        by_cases hname : f.name = (fs.get ⟨j, hj⟩).name
        · rw [if_pos hname]
          have hsp : lookupA sps (fs.get ⟨j, hj⟩).name = some sp := hname ▸ hlook
          rw [hsp]
          refine ⟨_, rfl, ?_⟩
          have hsp2 : sp = sp2 := by rw [hsp] at hlook2'; injection hlook2'
          simpa [hsp2] using hw2'
        · rw [if_neg hname, hlook2']
          exact ⟨sp2, rfl, hw2'⟩
      obtain ⟨sps', hok, hkeys⟩ := ih
        (updateA sps f.name (fun _ => { sp with values := sp.values ++ [env.fval i] }))
        (i + 1) hrec
      refine ⟨sps', ?_, hkeys.trans (updateA_keys sps f.name _)⟩
      simp only [SState.push_functions, hlook, hpush]
      exact hok

theorem sample_data_eval_time (s : SState Config) (env : Env Config)
    (s5 : SState Config) (t : ℝ) (g : RNG)
    (hpush : s.push_data env = .ok s5) (hmode : s5.sample_mode = .BY_TIME)
    (hat : s5.sample_at s5.sample_time.length = some (t, g)) :
    s.sample_data env =
      if t ≤ s5.time then .err .runtimeError
      else .ok { s5 with next_sample_time := t, rng := g } := by
  unfold SState.sample_data
  rw [hpush]
  simp only [hmode, if_pos]
  rw [hat]

theorem sample_data_eval_count (s : SState Config) (env : Env Config)
    (s5 : SState Config) (v : ℝ) (g : RNG)
    (hpush : s.push_data env = .ok s5) (hmode : s5.sample_mode ≠ .BY_TIME)
    (hat : s5.sample_at s5.sample_count.length = some (v, g)) :
    s.sample_data env =
      if cround v ≤ s5.count then .err .runtimeError
      else .ok { s5 with next_sample_count := cround v, rng := g } := by
  unfold SState.sample_data
  rw [hpush]
  simp only [if_neg hmode]
  rw [hat]

theorem sample_data_eval_time_diverges (s : SState Config) (env : Env Config)
    (s5 : SState Config)
    (hpush : s.push_data env = .ok s5) (hmode : s5.sample_mode = .BY_TIME)
    (hat : s5.sample_at s5.sample_time.length = none) :
    s.sample_data env = .diverges := by
  unfold SState.sample_data
  rw [hpush]
  simp only [hmode, if_pos]
  rw [hat]

theorem sample_data_eval_count_diverges (s : SState Config) (env : Env Config)
    (s5 : SState Config)
    (hpush : s.push_data env = .ok s5) (hmode : s5.sample_mode ≠ .BY_TIME)
    (hat : s5.sample_at s5.sample_count.length = none) :
    s.sample_data env = .diverges := by
  unfold SState.sample_data
  rw [hpush]
  simp only [if_neg hmode]
  rw [hat]

/-- Claim C5: `sample_data` throws a `std::runtime_error` if and only if
the recomputed next sample target is not strictly greater than the current
position — for `BY_TIME` mode when the new `next_sample_time ≤ time`, for
`BY_STEP`/`BY_PASS` modes when the new `next_sample_count ≤ count` — and
returns normally otherwise.  The hypothesis says each sampling function
has a sampler of matching width (established by `reset` and the sampling
functions' fixed-width contract); `sample_at` returning `none` is the
stochastic schedule looping forever, in which case the call never returns. -/
theorem claim_C5_schedule_violation (s : SState Config) (env : Env Config)
    (hcomp : ∀ (j : ℕ) (hj : j < s.functions.length), ∃ sp,
       lookupA s.samplers (s.functions.get ⟨j, hj⟩).name = some sp ∧
       (env.fval j).length = sp.component_names.length) :
    ∃ s5, s.push_data env = .ok s5 ∧
      (s.sample_mode = .BY_TIME →
        (∀ t g, s5.sample_at s5.sample_time.length = some (t, g) →
           ((s.sample_data env = .err .runtimeError ↔ t ≤ s.time) ∧
            (s.time < t →
              s.sample_data env = .ok { s5 with next_sample_time := t, rng := g }))) ∧
        (s5.sample_at s5.sample_time.length = none →
           s.sample_data env = .diverges)) ∧
      (s.sample_mode ≠ .BY_TIME →
        (∀ t g, s5.sample_at s5.sample_count.length = some (t, g) →
           ((s.sample_data env = .err .runtimeError ↔ cround t ≤ s.count) ∧
            (s.count < cround t →
              s.sample_data env = .ok { s5 with next_sample_count := cround t, rng := g }))) ∧
        (s5.sample_at s5.sample_count.length = none →
           s.sample_data env = .diverges)) := by
  obtain ⟨sps', hok, hkeys⟩ :=
    push_functions_isOk env s.functions s.samplers 0 (by simpa using hcomp)
  set s5 : SState Config := { s with
      sample_count := s.sample_count ++ [s.count],
      sample_time :=
        if s.do_sample_time then s.sample_time ++ [s.time] else s.sample_time,
      sample_clocktime := s.sample_clocktime ++ [env.clocktime],
      sample_trajectory :=
        if s.do_sample_trajectory then s.sample_trajectory ++ [env.configuration]
        else s.sample_trajectory,
      samplers := sps' } with hs5
  have hpush : s.push_data env = .ok s5 := by rw [push_data_eq, hok]
  have hmode5 : s5.sample_mode = s.sample_mode := rfl
  have htime5 : s5.time = s.time := rfl
  have hcount5 : s5.count = s.count := rfl
  refine ⟨s5, hpush, ?_, ?_⟩
  · intro hmode
    constructor
    · intro t g hat
      have heval := sample_data_eval_time s env s5 t g hpush
        (hmode5.trans hmode) hat
      rw [htime5] at heval
      constructor
      · rw [heval]
        by_cases hle : t ≤ s.time
        · rw [if_pos hle]; simp [hle]
        · rw [if_neg hle]; simp [hle]
      · intro hlt
        rw [heval, if_neg (not_le.mpr hlt)]
    · intro hat
      exact sample_data_eval_time_diverges s env s5 hpush
        (hmode5.trans hmode) hat
  · intro hmode
    constructor
    · intro t g hat
      have heval := sample_data_eval_count s env s5 t g hpush
        (fun h => hmode (hmode5.symm.trans h)) hat
      rw [hcount5] at heval
      constructor
      · rw [heval]
        by_cases hle : cround t ≤ s.count
        · rw [if_pos hle]; simp [hle]
        · rw [if_neg hle]; simp [hle]
      · intro hlt
        rw [heval, if_neg (not_le.mpr hlt)]
    · intro hat
      exact sample_data_eval_count_diverges s env s5 hpush
        (fun h => hmode (hmode5.symm.trans h)) hat

end ClaimC5

/-- The state of `baseSampler` right after the data-recording half of one
`sample_data` call. -/
def c5Mid : SState Unit :=
  { baseSampler with sample_count := [0], sample_clocktime := [0] }

/-- Witness for claim C5: one `sample_data` call on the freshly reset
deterministic `baseSampler` records the data, does not throw (the new
target 10 is strictly greater than `count = 0`), and returns normally
with `next_sample_count` updated. -/
theorem claim_C5_witness :
    baseSampler.push_data trivialEnv = .ok c5Mid ∧
    (baseSampler.sample_data trivialEnv = .err .runtimeError ↔
      cround 10 ≤ baseSampler.count) ∧
    baseSampler.sample_data trivialEnv =
      .ok { c5Mid with next_sample_count := cround 10, rng := zeroRNG } := by
  obtain ⟨s5, hpush, -, hc⟩ := claim_C5_schedule_violation baseSampler trivialEnv
    (by intro j hj; simp [baseSampler] at hj)
  have h2 : baseSampler.push_data trivialEnv = .ok c5Mid := by
    rw [push_data_eq]
    simp [SState.push_functions, baseSampler, c5Mid, trivialEnv]
  have hs5 : s5 = c5Mid := by
    rw [hpush] at h2
    injection h2
  have hmode : baseSampler.sample_mode ≠ .BY_TIME := by simp [baseSampler]
  have hat : c5Mid.sample_at 1 = some (10, zeroRNG) := by
    rw [sample_at_det c5Mid rfl 1]
    norm_num [c5Mid, baseSampler]
  have hat' : s5.sample_at s5.sample_count.length = some (10, zeroRNG) := by
    rw [hs5]; exact hat
  obtain ⟨hiff, hok⟩ := (hc hmode).1 10 zeroRNG hat'
  have hcr : cround 10 = 10 := by
    unfold cround
    rw [if_pos (by norm_num : (0 : ℝ) ≤ 10)]
    rw [Int.floor_eq_iff]
    constructor <;> norm_num
  refine ⟨h2, hiff, ?_⟩
  have hlt : baseSampler.count < cround 10 := by
    rw [hcr]
    show (0 : ℤ) < 10
    norm_num
  have := hok hlt
  rw [hs5] at this
  exact this

section ClaimC2

variable {Config : Type _}

theorem push_back_ok_inv (sp : Sampler) (v : List ℝ) (sp' : Sampler)
    (h : sp.push_back v = .ok sp') :
    sp' = { sp with values := sp.values ++ [v] } := by
  unfold Sampler.push_back at h
  split at h
  · injection h with h'; exact h'.symm
  · exact absurd h (by simp)

theorem push_functions_skip (env : Env Config) (k : String) (sp : Sampler) :
    ∀ (fs : List StateSamplingFunction) (rest : List (String × Sampler)) (i : ℕ),
      k ∉ fs.map (·.name) →
      SState.push_functions env ((k, sp) :: rest) fs i =
        match SState.push_functions env rest fs i with
        | .ok rest' => .ok ((k, sp) :: rest')
        | .error e => .error e := by
  intro fs
  induction fs with
  | nil => intro rest i _; rfl
  | cons f fs ih =>
      intro rest i hk
      rw [List.map_cons, List.mem_cons] at hk
      push_neg at hk
      obtain ⟨hne, hk'⟩ := hk
      have hlook : lookupA ((k, sp) :: rest) f.name = lookupA rest f.name := by
        simp [lookupA, hne]
      cases hl : lookupA rest f.name with
      | none => simp only [SState.push_functions, hlook, hl]
      | some spf =>
          cases hpb : spf.push_back (env.fval i) with
          | error e => simp only [SState.push_functions, hlook, hl, hpb]
          | ok sp' =>
              simp only [SState.push_functions, hlook, hl, hpb]
              rw [updateA_of_ne rest f.name k sp (fun _ => sp') hne]
              rw [ih (updateA rest f.name fun _ => sp') (i + 1) hk']

theorem push_functions_ok_pointwise (env : Env Config) :
    ∀ (fs : List StateSamplingFunction) (sps sps' : List (String × Sampler)) (i : ℕ),
      sps.map Prod.fst = fs.map (·.name) →
      (fs.map (·.name)).Nodup →
      SState.push_functions env sps fs i = .ok sps' →
      sps'.map Prod.fst = sps.map Prod.fst ∧
      ∀ p ∈ sps', ∃ q ∈ sps, p.2.values.length = q.2.values.length + 1 := by
  intro fs
  induction fs with
  | nil =>
      intro sps sps' i halign _ h
      have hnil : sps = [] := by
        cases sps with
        | nil => rfl
        | cons q rest => simp at halign
      subst hnil
      obtain rfl : sps' = ([] : List (String × Sampler)) := by
        injection h with h'; exact h'.symm
      exact ⟨rfl, by simp⟩
  | cons f fs ih =>
      intro sps sps' i halign hnodup h
      cases sps with
      | nil => simp at halign
      | cons q rest =>
          obtain ⟨k, sp⟩ := q
          rw [List.map_cons, List.map_cons] at halign
          have hk : k = f.name := by injection halign
          have hrest : rest.map Prod.fst = fs.map (·.name) := by
            injection halign
          subst hk
          rw [List.map_cons, List.nodup_cons] at hnodup
          have hlook : lookupA ((f.name, sp) :: rest) f.name = some sp := by
            simp [lookupA]
          cases hpb : sp.push_back (env.fval i) with
          | error e =>
              rw [show SState.push_functions env ((f.name, sp) :: rest) (f :: fs) i =
                  .error e by simp only [SState.push_functions, hlook, hpb]] at h
              exact absurd h (by simp)
          | ok sp0 =>
              obtain rfl := push_back_ok_inv sp (env.fval i) sp0 hpb
              rw [show SState.push_functions env ((f.name, sp) :: rest) (f :: fs) i =
                  SState.push_functions env
                    ((f.name, { sp with values := sp.values ++ [env.fval i] }) :: rest)
                    fs (i + 1) by
                simp only [SState.push_functions, hlook, hpb]
                rw [show updateA ((f.name, sp) :: rest) f.name
                    (fun _ => { sp with values := sp.values ++ [env.fval i] }) =
                    (f.name, { sp with values := sp.values ++ [env.fval i] }) :: rest by
                  simp [updateA]]] at h
              rw [push_functions_skip env f.name _ fs rest (i + 1) hnodup.1] at h
              cases hrec : SState.push_functions env rest fs (i + 1) with
              | error e => rw [hrec] at h; exact absurd h (by simp)
              | ok rest' =>
                  rw [hrec] at h
                  obtain rfl : (f.name, { sp with values := sp.values ++ [env.fval i] })
                      :: rest' = sps' := by injection h
                  obtain ⟨hkeys, hpt⟩ := ih rest rest' (i + 1) hrest hnodup.2 hrec
                  constructor
                  · simp [hkeys]
                  · intro p hp
                    rw [List.mem_cons] at hp
                    rcases hp with hp | hp
                    · subst hp
                      exact ⟨(f.name, sp), by simp, by simp⟩
                    · obtain ⟨q2, hq2, hlen⟩ := hpt p hp
                      exact ⟨q2, by simp [hq2], hlen⟩

theorem build_samplers_eq (fns : List StateSamplingFunction)
    (hnodup : (fns.map (·.name)).Nodup) :
    SState.build_samplers fns =
      fns.map fun f => (f.name, (⟨f.shape, f.component_names, []⟩ : Sampler)) := by
  unfold SState.build_samplers
  rw [foldl_emplaceA_append (fun f : StateSamplingFunction => f.name)
    (fun f => (⟨f.shape, f.component_names, []⟩ : Sampler)) fns []
    (by simp [lookupA]) hnodup]
  simp

/-- The alignment invariant of a `StateSampler`'s sampled-data containers:
the sampler map is keyed by the (pairwise-distinct) function names, and
every per-sample container holds exactly one entry per `sample_count`
entry. -/
def WFAligned (s : SState Config) : Prop :=
  (s.functions.map (·.name)).Nodup ∧
  s.samplers.map Prod.fst = s.functions.map (·.name) ∧
  s.sample_clocktime.length = s.sample_count.length ∧
  (s.do_sample_time = true → s.sample_time.length = s.sample_count.length) ∧
  (s.do_sample_trajectory = true →
    s.sample_trajectory.length = s.sample_count.length) ∧
  ∀ p ∈ s.samplers, p.2.values.length = s.sample_count.length

theorem WFAligned_increment_step (s : SState Config) (h : WFAligned s) :
    WFAligned s.increment_step := by
  rw [increment_step_eq]
  by_cases hc : s.step + 1 = s.steps_per_pass
  · rw [if_pos hc]; exact h
  · rw [if_neg hc]; exact h

theorem increment_step_sample_count (s : SState Config) :
    (s.increment_step).sample_count = s.sample_count := by
  rw [increment_step_eq]; split <;> rfl

theorem sample_data_ok_WF (s : SState Config) (env : Env Config)
    (s' : SState Config) (hWF : WFAligned s) (h : s.sample_data env = .ok s') :
    WFAligned s' ∧ s'.sample_count = s.sample_count ++ [s.count] := by
  obtain ⟨hnodup, hkeys, hclock, htime, htraj, hvals⟩ := hWF
  unfold SState.sample_data at h
  split at h
  · exact absurd h (by simp)
  rename_i s5 heq
  have hpe := push_data_eq s env
  rw [heq] at hpe
  cases hok : SState.push_functions env s.samplers s.functions 0 with
  | error e => rw [hok] at hpe; exact absurd hpe (by simp)
  | ok sps' =>
      rw [hok] at hpe
      have hs5 : s5 = { s with
          sample_count := s.sample_count ++ [s.count],
          sample_time :=
            if s.do_sample_time then s.sample_time ++ [s.time] else s.sample_time,
          sample_clocktime := s.sample_clocktime ++ [env.clocktime],
          sample_trajectory :=
            if s.do_sample_trajectory then s.sample_trajectory ++ [env.configuration]
            else s.sample_trajectory,
          samplers := sps' } := by
        injection hpe
      obtain ⟨hkeys', hpt⟩ :=
        push_functions_ok_pointwise env s.functions s.samplers sps' 0 hkeys hnodup hok
      have hgoal : ∀ (s'' : SState Config),
          (s''.functions = s5.functions ∧ s''.samplers = s5.samplers ∧
           s''.sample_count = s5.sample_count ∧
           s''.sample_time = s5.sample_time ∧
           s''.sample_clocktime = s5.sample_clocktime ∧
           s''.sample_trajectory = s5.sample_trajectory ∧
           s''.do_sample_time = s5.do_sample_time ∧
           s''.do_sample_trajectory = s5.do_sample_trajectory) →
          WFAligned s'' ∧ s''.sample_count = s.sample_count ++ [s.count] := by
        intro s'' hfields
        obtain ⟨hf1, hf2, hf3, hf4, hf5, hf6, hf7, hf8⟩ := hfields
        rw [hs5] at hf1 hf2 hf3 hf4 hf5 hf6 hf7 hf8
        simp only at hf1 hf2 hf3 hf4 hf5 hf6 hf7 hf8
        refine ⟨⟨?_, ?_, ?_, ?_, ?_, ?_⟩, ?_⟩
        · rw [hf1]; exact hnodup
        · rw [hf2, hf1, hkeys']; exact hkeys
        · rw [hf5, hf3]; simp [hclock]
        · intro hdt
          rw [hf7] at hdt
          rw [hf4, hf3, if_pos hdt]
          simp [htime hdt]
        · intro hdt
          rw [hf8] at hdt
          rw [hf6, hf3, if_pos hdt]
          simp [htraj hdt]
        · intro p hp
          rw [hf2] at hp
          obtain ⟨q, hq, hlen⟩ := hpt p hp
          rw [hf3, hlen, hvals q hq]
          simp
        · rw [hf3]
      split at h
      · -- BY_TIME branch
        split at h
        · exact absurd h (by simp)
        · simp only [] at h
          split at h
          · exact absurd h (by simp)
          · injection h with hs'
            exact hgoal s' (by rw [← hs']; exact ⟨rfl, rfl, rfl, rfl, rfl, rfl, rfl, rfl⟩)
      · -- count branch
        split at h
        · exact absurd h (by simp)
        · simp only [] at h
          split at h
          · exact absurd h (by simp)
          · injection h with hs'
            exact hgoal s' (by rw [← hs']; exact ⟨rfl, rfl, rfl, rfl, rfl, rfl, rfl, rfl⟩)

theorem reset_ok_WF (s : SState Config) (spp : ℝ) (s0 : SState Config)
    (hnodup : (s.functions.map (·.name)).Nodup)
    (h : s.reset spp = .ok s0) :
    WFAligned s0 ∧ s0.sample_count = [] ∧ s0.functions = s.functions := by
  have hbase : ∀ (s1 : SState Config),
      s1.functions = s.functions →
      s1.samplers = SState.build_samplers s.functions →
      s1.sample_count = ([] : List ℤ) →
      s1.sample_time = ([] : List ℝ) →
      s1.sample_clocktime = ([] : List ℝ) →
      s1.sample_trajectory = ([] : List Config) →
      WFAligned s1 ∧ s1.sample_count = [] ∧ s1.functions = s.functions := by
    intro s1 hf hsam hsc hst hscl hstr
    refine ⟨⟨?_, ?_, ?_, ?_, ?_, ?_⟩, hsc, hf⟩
    · rw [hf]; exact hnodup
    · rw [hf, hsam, build_samplers_eq s.functions hnodup]
      simp
    · rw [hscl, hsc]; rfl
    · intro _; rw [hst, hsc]; rfl
    · intro _; rw [hstr, hsc]; rfl
    · intro p hp
      rw [hsam, build_samplers_eq s.functions hnodup] at hp
      rw [List.mem_map] at hp
      obtain ⟨f, -, rfl⟩ := hp
      rw [hsc]
      rfl
  unfold SState.reset at h
  simp only [] at h
  split at h
  · split at h
    · exact absurd h (by simp)
    · split at h
      · exact absurd h (by simp)
      · injection h with hs0
        exact hbase s0 (by rw [← hs0]) (by rw [← hs0]) (by rw [← hs0])
          (by rw [← hs0]) (by rw [← hs0]) (by rw [← hs0])
  · split at h
    · exact absurd h (by simp)
    · split at h
      · exact absurd h (by simp)
      · injection h with hs0
        exact hbase s0 (by rw [← hs0]) (by rw [← hs0]) (by rw [← hs0])
          (by rw [← hs0]) (by rw [← hs0]) (by rw [← hs0])

theorem exec_WF :
    ∀ (ops : List (Op Config)) (s s' : SState Config),
      WFAligned s → exec s ops = some s' →
      WFAligned s' ∧ ∃ cs, recordedCounts s ops = some cs ∧
        s'.sample_count = s.sample_count ++ cs := by
  intro ops
  induction ops with
  | nil =>
      intro s s' hWF h
      obtain rfl : s = s' := by injection h
      exact ⟨hWF, [], rfl, by simp⟩
  | cons op ops ih =>
      intro s s' hWF h
      cases op with
      | incStep =>
          obtain ⟨hWF', cs, hrc, hsc⟩ :=
            ih s.increment_step s' (WFAligned_increment_step s hWF) h
          exact ⟨hWF', cs, hrc, by rw [hsc, increment_step_sample_count]⟩
      | setTime t =>
          obtain ⟨hWF', cs, hrc, hsc⟩ := ih (s.set_time t) s' hWF h
          exact ⟨hWF', cs, hrc, hsc⟩
      | sample env =>
          cases hsd : s.sample_data env with
          | ok s1 =>
              have hexec1 : exec s1 ops = some s' := by
                rw [show exec s (Op.sample env :: ops) = exec s1 ops by
                  simp only [exec, hsd]] at h
                exact h
              obtain ⟨hWF1, hsc1⟩ := sample_data_ok_WF s env s1 hWF hsd
              obtain ⟨hWF', cs, hrc, hsc⟩ := ih s1 s' hWF1 hexec1
              refine ⟨hWF', s.count :: cs, ?_, ?_⟩
              · simp only [recordedCounts, hsd, hrc]
                rfl
              · rw [hsc, hsc1]
                simp
          | err e =>
              rw [show exec s (Op.sample env :: ops) = none by
                simp only [exec, hsd]] at h
              exact absurd h (by simp)
          | diverges =>
              rw [show exec s (Op.sample env :: ops) = none by
                simp only [exec, hsd]] at h
              exact absurd h (by simp)

/-- Claim C2 (amended): after `reset` and any sequence of successful
`sample_data` calls (interleaved with `increment_step` / `set_time`), the
containers stay positionally aligned — `sample_count.size()` equals
`sample_clocktime.size()`, equals the number of rows in every `Sampler` in
`samplers`, equals `sample_time.size()` when `do_sample_time` and
`sample_trajectory.size()` when `do_sample_trajectory` — and
`sample_count` holds the `count` values in the order the samples were
taken; provided the sampling functions have pairwise-distinct names (the
invariant guaranteed when the `StateSampler` is built from a
`StateSamplingFunctionMap`). -/
theorem claim_C2_sampled_data_alignment (s : SState Config) (spp : ℝ)
    (s0 s' : SState Config) (ops : List (Op Config))
    (hnodup : (s.functions.map (·.name)).Nodup)
    (hreset : s.reset spp = .ok s0)
    (hexec : exec s0 ops = some s') :
    s'.sample_clocktime.length = s'.sample_count.length ∧
    (∀ p ∈ s'.samplers, p.2.values.length = s'.sample_count.length) ∧
    (s'.do_sample_time = true → s'.sample_time.length = s'.sample_count.length) ∧
    (s'.do_sample_trajectory = true →
      s'.sample_trajectory.length = s'.sample_count.length) ∧
    ∃ cs, recordedCounts s0 ops = some cs ∧ s'.sample_count = cs := by
  obtain ⟨hWF0, hsc0, -⟩ := reset_ok_WF s spp s0 hnodup hreset
  obtain ⟨hWF', cs, hrc, hsc⟩ := exec_WF ops s0 s' hWF0 hexec
  obtain ⟨-, -, h3, h4, h5, h6⟩ := hWF'
  exact ⟨h3, h6, h4, h5, cs, hrc, by rw [hsc, hsc0]; simp⟩

end ClaimC2

theorem cround_intCast (n : ℤ) : cround (n : ℝ) = n := by
  unfold cround
  by_cases h : (0 : ℝ) ≤ (n : ℝ)
  · rw [if_pos h, Int.floor_eq_iff]
    constructor
    · linarith
    · push_cast; linarith
  · rw [if_neg h, Int.ceil_eq_iff]
    constructor
    · push_cast; linarith
    · linarith

theorem ctrunc_intCast (n : ℤ) : ctrunc (n : ℝ) = n := by
  unfold ctrunc
  by_cases h : (0 : ℝ) ≤ (n : ℝ)
  · rw [if_pos h, Int.floor_intCast]
  · rw [if_neg h, Int.ceil_intCast]

theorem cround_zero : cround 0 = 0 := by
  have h := cround_intCast 0; simpa using h

theorem cround_ten : cround 10 = 10 := by
  have h := cround_intCast 10; simpa using h

theorem ctrunc_one : ctrunc 1 = 1 := by
  have h := ctrunc_intCast 1; simpa using h

/-- A sampling function named `"a"` with one component. -/
def dupFn : StateSamplingFunction := ⟨"a", "", [], ["0"]⟩

/-- A `StateSampler` whose function list holds the same name twice —
constructible through the public `StateSampler` constructor that takes a
`std::vector<StateSamplingFunction>`. -/
def dupSampler : SState Unit := { baseSampler with functions := [dupFn, dupFn] }

/-- An environment whose sampling functions all return the width-1 vector
`[3]`. -/
def dupEnv : Env Unit := ⟨(), 0, fun _ => [3]⟩

/-- The state `dupSampler.reset 1` produces. -/
def dupReset : SState Unit :=
  { dupSampler with
      steps_per_pass := 1,
      samplers := [("a", ⟨[], ["0"], []⟩)] }

theorem dup_reset_eval : dupSampler.reset 1 = .ok dupReset := by
  unfold SState.reset
  simp only []
  rw [if_neg (show ¬ dupSampler.sample_mode = .BY_TIME by
    simp [dupSampler, baseSampler])]
  rw [sample_at_det _ rfl]
  simp only [dupSampler, baseSampler, dupFn, dupReset]
  norm_num [cround_zero, ctrunc_one, SState.build_samplers, emplaceA,
    Sampler.clear]

/-- The state after the data-recording half of `sample_data` on
`dupReset`: the single sampler received two rows. -/
def dupMid : SState Unit :=
  { dupReset with
      sample_count := [0],
      sample_clocktime := [0],
      samplers := [("a", ⟨[], ["0"], [[3], [3]]⟩)] }

theorem dup_push_eval : dupReset.push_data dupEnv = .ok dupMid := by
  rw [push_data_eq]
  have hpf : SState.push_functions dupEnv dupReset.samplers dupReset.functions 0 =
      .ok [("a", ⟨[], ["0"], [[3], [3]]⟩)] := by
    simp [dupReset, dupSampler, baseSampler, dupFn, dupEnv,
      SState.push_functions, lookupA, updateA, Sampler.push_back]
  rw [hpf]
  simp [dupReset, dupSampler, baseSampler, dupMid, dupEnv]

theorem dup_sample_at : dupMid.sample_at 1 = some (10, zeroRNG) := by
  rw [sample_at_det _ rfl]
  simp only [dupMid, dupReset, dupSampler, baseSampler]
  norm_num

/-- The state after one full `sample_data` call on `dupReset`. -/
def dupFinal : SState Unit := { dupMid with next_sample_count := 10 }

theorem dup_sample_eval : dupReset.sample_data dupEnv = .ok dupFinal := by
  have h := sample_data_eval_count dupReset dupEnv dupMid 10 zeroRNG
    dup_push_eval (by simp [dupMid, dupReset, dupSampler, baseSampler])
    dup_sample_at
  rw [h, cround_ten,
    if_neg (by norm_num [dupMid, dupReset, dupSampler, baseSampler] :
      ¬ (10 : ℤ) ≤ dupMid.count)]
  simp [dupFinal, dupMid, dupReset, dupSampler, baseSampler, zeroRNG]

/-- Counterexample to claim C2 as stated: a `StateSampler` whose function
list holds the name `"a"` twice.  After `reset` (which builds one sampler,
because `emplace` skips the duplicate) and one successful `sample_data`
call, `sample_count` has one entry while the sampler `"a"` has two rows:
the containers are not positionally aligned. -/
theorem claim_C2_counterexample :
    dupSampler.functions.map (·.name) = ["a", "a"] ∧
    dupSampler.reset 1 = .ok dupReset ∧
    exec dupReset [Op.sample dupEnv] = some dupFinal ∧
    dupFinal.sample_count.length = 1 ∧
    lookupA dupFinal.samplers "a" = some ⟨[], ["0"], [[3], [3]]⟩ ∧
    ([[3], [3]] : List (List ℝ)).length = 2 := by
  refine ⟨by simp [dupSampler, baseSampler, dupFn], dup_reset_eval, ?_,
    by simp [dupFinal, dupMid], by simp [dupFinal, dupMid, lookupA], by simp⟩
  simp only [exec, dup_sample_eval]

/-- A sampling function named `"q"` with one component. -/
def oneFn : StateSamplingFunction := ⟨"q", "", [], ["0"]⟩

/-- A `StateSampler` with the single sampling function `oneFn`. -/
def oneSampler : SState Unit := { baseSampler with functions := [oneFn] }

/-- The state `oneSampler.reset 1` produces. -/
def oneReset : SState Unit :=
  { oneSampler with
      steps_per_pass := 1,
      samplers := [("q", ⟨[], ["0"], []⟩)] }

theorem one_reset_eval : oneSampler.reset 1 = .ok oneReset := by
  unfold SState.reset
  simp only []
  rw [if_neg (show ¬ oneSampler.sample_mode = .BY_TIME by
    simp [oneSampler, baseSampler])]
  rw [sample_at_det _ rfl]
  simp only [oneSampler, baseSampler, oneFn, oneReset]
  norm_num [cround_zero, ctrunc_one, SState.build_samplers, emplaceA,
    Sampler.clear]

/-- State `oneReset` after one `increment_step` (a full pass: `steps_per_pass = 1`). -/
def oneMid : SState Unit := { oneReset with pass := 1, count := 1 }

theorem one_incstep : oneReset.increment_step = oneMid := by
  rw [increment_step_eq,
    if_pos (by norm_num [oneReset, oneSampler, baseSampler] :
      oneReset.step + 1 = oneReset.steps_per_pass)]
  simp [oneMid, oneReset, oneSampler, baseSampler]

/-- State `oneMid` after the data-recording half of `sample_data`. -/
def onePush : SState Unit :=
  { oneMid with
      sample_count := [1],
      sample_clocktime := [0],
      samplers := [("q", ⟨[], ["0"], [[3]]⟩)] }

theorem one_push_eval : oneMid.push_data dupEnv = .ok onePush := by
  rw [push_data_eq]
  have hpf : SState.push_functions dupEnv oneMid.samplers oneMid.functions 0 =
      .ok [("q", ⟨[], ["0"], [[3]]⟩)] := by
    simp [oneMid, oneReset, oneSampler, baseSampler, oneFn, dupEnv,
      SState.push_functions, lookupA, updateA, Sampler.push_back]
  rw [hpf]
  simp [oneMid, oneReset, oneSampler, baseSampler, onePush, dupEnv]

theorem one_sample_at : onePush.sample_at 1 = some (10, zeroRNG) := by
  rw [sample_at_det _ rfl]
  simp only [onePush, oneMid, oneReset, oneSampler, baseSampler]
  norm_num

/-- The state after `increment_step` and one `sample_data` on `oneReset`. -/
def oneFinal : SState Unit := { onePush with next_sample_count := 10 }

theorem one_sample_eval : oneMid.sample_data dupEnv = .ok oneFinal := by
  have h := sample_data_eval_count oneMid dupEnv onePush 10 zeroRNG
    one_push_eval (by simp [onePush, oneMid, oneReset, oneSampler, baseSampler])
    one_sample_at
  rw [h, cround_ten,
    if_neg (by norm_num [onePush, oneMid, oneReset, oneSampler, baseSampler] :
      ¬ (10 : ℤ) ≤ onePush.count)]
  simp [oneFinal, onePush, oneMid, oneReset, oneSampler, baseSampler, zeroRNG]

theorem one_exec :
    exec oneReset [Op.incStep, Op.sample dupEnv] = some oneFinal := by
  simp only [exec, one_incstep, one_sample_eval]

/-- Witness for claim C2 (amended) on a sampler with one distinctly named
function, after one `increment_step` and one `sample_data`. -/
theorem claim_C2_witness :
    oneFinal.sample_clocktime.length = oneFinal.sample_count.length ∧
    (∀ p ∈ oneFinal.samplers, p.2.values.length = oneFinal.sample_count.length) ∧
    (oneFinal.do_sample_time = true →
      oneFinal.sample_time.length = oneFinal.sample_count.length) ∧
    (oneFinal.do_sample_trajectory = true →
      oneFinal.sample_trajectory.length = oneFinal.sample_count.length) ∧
    ∃ cs, recordedCounts oneReset [Op.incStep, Op.sample dupEnv] = some cs ∧
      oneFinal.sample_count = cs :=
  claim_C2_sampled_data_alignment oneSampler 1 oneReset oneFinal
    [Op.incStep, Op.sample dupEnv]
    (by simp [oneSampler, baseSampler, oneFn]) one_reset_eval one_exec

end CASMMonte
